import Mathlib

/-!
Verification of the ffmpeg recorder server (`recorder_server.py`).

The file gives a shallow embedding of the server's session-lifecycle,
log-broker, shutdown and file-path logic, and proves or refutes the
behavioural claims of the design specification against it.  Pure helpers
(`get_output_filename`, configuration validation) are embedded as Lean
functions; the threaded parts (concurrent start requests, the shared log
queue, the signal handler) are embedded as explicit state machines whose
atomic steps are the individual statements the interpreter executes.
-/

/- ### Configuration constants (lines 40-62 of the source) -/

/-- Directory holding the recorded output files. -/
def RECORDINGS_DIR : String := "recordings"

/-- Accepted bitrate values. -/
def BITRATES : List String := ["500k", "1M", "2M", "4M"]

/-- Accepted resolutions, as (value, label) pairs. -/
def RESOLUTIONS : List (String × String) :=
  [("1920x1080", "1920x1080"), ("1600x1200", "1600x1200"), ("1360x768", "1360x768"),
   ("1280x1024", "1280x1024"), ("1280x960", "1280x960"), ("1280x720", "1280x720"),
   ("1024x768", "1024x768"), ("800x600", "800x600"), ("720x576", "720x576"),
   ("720x480", "720x480"), ("640x480", "640x480")]

/-- Default bitrate. -/
def DEFAULT_BITRATE : String := "2M"

/-- Default resolution. -/
def DEFAULT_RESOLUTION : String := "1280x720"

/-- Accepted output containers, as (value, label) pairs. -/
def FORMATS : List (String × String) :=
  [("mp4", "MP4 (H.264)"), ("avi", "AVI (DivX)")]

/-- Default output container. -/
def DEFAULT_FORMAT : String := "mp4"

/-- Default video input format. -/
def DEFAULT_INPUT_FORMAT : String := "mjpeg"

/- ### Output filename generation (`get_output_filename`, lines 209-212) -/

/-- Wall-clock time at second granularity, as read by `datetime.now()`. -/
structure DateTime where
  year : Nat
  month : Nat
  day : Nat
  hour : Nat
  minute : Nat
  second : Nat
deriving DecidableEq, Repr

/-- Ranges of a real calendar time (with a four-digit year, as `%Y` renders). -/
def DateTime.valid (t : DateTime) : Prop :=
  1970 ≤ t.year ∧ t.year < 10000 ∧ 1 ≤ t.month ∧ t.month ≤ 12 ∧
    1 ≤ t.day ∧ t.day ≤ 31 ∧ t.hour < 24 ∧ t.minute < 60 ∧ t.second < 60

instance (t : DateTime) : Decidable t.valid := by
  unfold DateTime.valid; infer_instance

/-- Two decimal digits, zero padded (`%m`, `%d`, `%H`, `%M`, `%S`). -/
def pad2 (n : Nat) : List Char :=
  [Nat.digitChar (n / 10), Nat.digitChar (n % 10)]

/-- Four decimal digits, zero padded (`%Y` for four-digit years). -/
def pad4 (n : Nat) : List Char :=
  [Nat.digitChar (n / 1000), Nat.digitChar (n / 100 % 10),
   Nat.digitChar (n / 10 % 10), Nat.digitChar (n % 10)]

/-- Rendering of `datetime.now().strftime("%Y%m%d-%H%M%S")`. -/
def strftimeTS (t : DateTime) : List Char :=
  pad4 t.year ++ pad2 t.month ++ pad2 t.day ++ ['-'] ++
    pad2 t.hour ++ pad2 t.minute ++ pad2 t.second

/-- Embedding of `os.path.join(a, b)` for a relative second argument. -/
def pathJoin (a b : String) : String := a ++ "/" ++ b

/-- Extension chosen by `get_output_filename`: ".mp4" if the requested format
is "mp4", otherwise ".avi". -/
def extOf (format : String) : String := if format = "mp4" then ".mp4" else ".avi"

/-- Embedding of `get_output_filename(format)` at clock reading `t`:
`os.path.join(RECORDINGS_DIR, f"output-{ts}{ext}")`. -/
def get_output_filename (format : String) (t : DateTime) : String :=
  pathJoin RECORDINGS_DIR ("output-" ++ String.mk (strftimeTS t) ++ extOf format)

theorem digitChar_inj {a b : Nat} (ha : a < 10) (hb : b < 10)
    (h : Nat.digitChar a = Nat.digitChar b) : a = b := by
  have hd : ∀ x y : Fin 10, Nat.digitChar x.val = Nat.digitChar y.val → x = y := by decide
  exact congrArg Fin.val (hd ⟨a, ha⟩ ⟨b, hb⟩ h)

theorem strftimeTS_inj {t1 t2 : DateTime} (h1 : t1.valid) (h2 : t2.valid)
    (h : strftimeTS t1 = strftimeTS t2) : t1 = t2 := by
  cases t1 with | mk y1 mo1 d1 hr1 mi1 s1 =>
  cases t2 with | mk y2 mo2 d2 hr2 mi2 s2 =>
  simp only [DateTime.valid] at h1 h2
  simp only [strftimeTS, pad4, pad2, List.cons_append, List.nil_append,
    List.cons.injEq, and_true, true_and] at h
  obtain ⟨e1, e2, e3, e4, e5, e6, e7, e8, e9, e10, e11, e12, e13, e14⟩ := h
  simp only [DateTime.mk.injEq]
  have a1 := digitChar_inj (by omega) (by omega) e1
  have a2 := digitChar_inj (by omega) (by omega) e2
  have a3 := digitChar_inj (by omega) (by omega) e3
  have a4 := digitChar_inj (by omega) (by omega) e4
  have b1 := digitChar_inj (by omega) (by omega) e5
  have b2 := digitChar_inj (by omega) (by omega) e6
  have c1 := digitChar_inj (by omega) (by omega) e7
  have c2 := digitChar_inj (by omega) (by omega) e8
  have d1 := digitChar_inj (by omega) (by omega) e9
  have d2 := digitChar_inj (by omega) (by omega) e10
  have f1 := digitChar_inj (by omega) (by omega) e11
  have f2 := digitChar_inj (by omega) (by omega) e12
  have g1 := digitChar_inj (by omega) (by omega) e13
  have g2 := digitChar_inj (by omega) (by omega) e14
  refine ⟨by omega, by omega, by omega, by omega, by omega, by omega⟩

theorem strftimeTS_length (t : DateTime) : (strftimeTS t).length = 15 := by
  simp [strftimeTS, pad4, pad2]

theorem get_output_filename_data (f : String) (t : DateTime) :
    (get_output_filename f t).data =
      "recordings".data ++ ("/".data ++ ("output-".data ++
        (strftimeTS t ++ (extOf f).data))) := by
  simp [get_output_filename, pathJoin, RECORDINGS_DIR, List.append_assoc]

/-- CLAIM C8: output filenames generated at wall-clock times at least one
second apart (hence with distinct second-granularity timestamps) are distinct,
and for each accepted container choice the generated filename ends with the
matching extension. -/
theorem claim_C8_filename :
    (∀ (t1 t2 : DateTime) (f1 f2 : String), t1.valid → t2.valid → t1 ≠ t2 →
      get_output_filename f1 t1 ≠ get_output_filename f2 t2) ∧
    (∀ t : DateTime, ".mp4".data <:+ (get_output_filename "mp4" t).data ∧
      ".avi".data <:+ (get_output_filename "avi" t).data) := by
  constructor
  · intro t1 t2 f1 f2 h1 h2 hne h
    apply hne
    apply strftimeTS_inj h1 h2
    have hd := congrArg String.data h
    rw [get_output_filename_data, get_output_filename_data] at hd
    have hd1 := List.append_cancel_left hd
    have hd2 := List.append_cancel_left hd1
    have hd3 := List.append_cancel_left hd2
    exact (List.append_inj hd3 (by rw [strftimeTS_length, strftimeTS_length])).1
  · intro t
    constructor
    · refine ⟨"recordings".data ++ ("/".data ++ ("output-".data ++ strftimeTS t)), ?_⟩
      rw [get_output_filename_data]
      simp [extOf, List.append_assoc]
    · refine ⟨"recordings".data ++ ("/".data ++ ("output-".data ++ strftimeTS t)), ?_⟩
      rw [get_output_filename_data]
      simp [extOf, List.append_assoc]

/-- Witness for C8 at two concrete times one second apart. -/
theorem claim_C8_filename_witness :
    get_output_filename "mp4" ⟨2024, 6, 1, 12, 0, 0⟩ ≠
      get_output_filename "mp4" ⟨2024, 6, 1, 12, 0, 1⟩ ∧
    ".avi".data <:+ (get_output_filename "avi" ⟨2024, 6, 1, 12, 0, 0⟩).data :=
  ⟨claim_C8_filename.1 ⟨2024, 6, 1, 12, 0, 0⟩ ⟨2024, 6, 1, 12, 0, 1⟩ "mp4" "mp4"
      (by decide) (by decide) (by decide),
    (claim_C8_filename.2 ⟨2024, 6, 1, 12, 0, 0⟩).2⟩

/- ### Session state and the start/stop handlers (lines 201-216, 342-369) -/

/-- One line of process output, tagged with its stream of origin
(the dict `{"type": "stderr"|"stdout", "data": line}`). -/
structure LogEntry where
  isStderr : Bool
  data : String
deriving DecidableEq, Repr

/-- Handle of a spawned ffmpeg process.  `alive` is `poll() is None`;
`sigints` counts the SIGINT signals sent to it by `stop_recording`. -/
structure Proc where
  pid : Nat
  alive : Bool
  sigints : Nat
deriving DecidableEq, Repr

/-- Global mutable state of the server: the `ffmpeg_process` slot, the
`ffmpeg_log_lines` deque, the `ffmpeg_log_queue`, plus bookkeeping of every
process ever spawned (to observe double spawns) and a fresh-pid counter. -/
structure ServerState where
  ffmpeg_process : Option Proc
  ffmpeg_log_lines : List LogEntry
  ffmpeg_log_queue : List LogEntry
  spawned : List Nat
  nextPid : Nat
deriving DecidableEq, Repr

/-- Embedding of `is_recording()`:
`ffmpeg_process is not None and ffmpeg_process.poll() is None`. -/
def is_recording (st : ServerState) : Bool :=
  match st.ffmpeg_process with
  | some p => p.alive
  | none => false

/-- Query parameters of the `/start` endpoint. -/
structure StartParams where
  bitrate : String
  resolution : String
  audio_device : Option String
  video_device : Option String
  format : String
  input_format : String
deriving DecidableEq, Repr

/-- Device lists returned by the enumeration collaborators
(`get_audio_devices()` / `get_video_devices()` value fields). -/
structure Env where
  audio_devices : List String
  video_devices : List String
deriving DecidableEq, Repr

/-- Responses of `start_recording`, one per return statement. -/
inductive StartResult
  /-- `{"error": "Already recording"}`, status 400. -/
  | alreadyRecording
  /-- `{"error": "Invalid bitrate"}`, status 400. -/
  | invalidBitrate
  /-- `{"error": "Invalid resolution"}`, status 400. -/
  | invalidResolution
  /-- `{"error": "Invalid format"}`, status 400. -/
  | invalidFormat
  /-- `{"error": "Valid audio device is required"}`, status 400. -/
  | invalidAudioDevice
  /-- `{"error": "Valid video device is required"}`, status 400. -/
  | invalidVideoDevice
  /-- `{"started": True, "output": name}`. -/
  | started (output : String)
deriving DecidableEq, Repr

/-- Embedding of the `/start` handler `start_recording` (lines 342-361),
run to quiescence: the guard chain in source order, then the spawned
`ffmpeg_worker` thread's immediate effects (`Popen`, the assignment to
`ffmpeg_process`, and `ffmpeg_log_lines.clear()`).  `t` is the wall clock
read by `get_output_filename`. -/
def start_recording (env : Env) (t : DateTime) (st : ServerState)
    (p : StartParams) : StartResult × ServerState :=
  if is_recording st then (.alreadyRecording, st)
  else if p.bitrate ∉ BITRATES then (.invalidBitrate, st)
  else if p.resolution ∉ RESOLUTIONS.map Prod.fst then (.invalidResolution, st)
  else if p.format ∉ FORMATS.map Prod.fst then (.invalidFormat, st)
  else match p.audio_device with
    | none => (.invalidAudioDevice, st)
    | some a =>
      if a = "" ∨ a ∉ env.audio_devices then (.invalidAudioDevice, st)
      else match p.video_device with
        | none => (.invalidVideoDevice, st)
        | some v =>
          if v = "" ∨ v ∉ env.video_devices then (.invalidVideoDevice, st)
          else
            (.started (get_output_filename p.format t),
              { st with
                ffmpeg_process := some ⟨st.nextPid, true, 0⟩,
                ffmpeg_log_lines := [],
                spawned := st.spawned ++ [st.nextPid],
                nextPid := st.nextPid + 1 })

/-- Responses of `stop_recording`. -/
inductive StopResult
  /-- `{"error": "Not recording"}`, status 400. -/
  | notRecording
  /-- `{"stopping": True}`. -/
  | stopping
deriving DecidableEq, Repr

/-- Embedding of the `/stop` handler `stop_recording` (lines 363-369):
reject when not recording, otherwise `ffmpeg_process.send_signal(SIGINT)`
and return at once.  Nothing here waits on the process or clears the slot;
that is done by the reaper. -/
def stop_recording (st : ServerState) : StopResult × ServerState :=
  match st.ffmpeg_process with
  | some p =>
    if p.alive then
      (.stopping, { st with ffmpeg_process := some { p with sigints := p.sigints + 1 } })
    else (.notRecording, st)
  | none => (.notRecording, st)

/-- Embedding of the reaper: the end of `ffmpeg_worker` (lines 240-243),
where `ffmpeg_process.wait()` returns and the `finally` block clears the
slot.  It is a separate step, never run by `stop_recording`. -/
def reap (st : ServerState) : ServerState :=
  { st with ffmpeg_process := none }

/- ### Concrete fixtures used by witnesses -/

/-- Device environment with one audio and one video device. -/
def envA : Env := ⟨["hw:CARD=C920"], ["/dev/video0"]⟩

/-- Sample wall clock reading. -/
def tA : DateTime := ⟨2024, 6, 1, 12, 0, 0⟩

/-- Server state with no process: fresh start. -/
def stIdle : ServerState := ⟨none, [], [], [], 1⟩

/-- Server state with one live ffmpeg process. -/
def stRunning : ServerState := ⟨some ⟨1, true, 0⟩, [], [], [1], 2⟩

/-- Fully valid start parameters against `envA`. -/
def paramsA : StartParams :=
  ⟨"2M", "1280x720", some "hw:CARD=C920", some "/dev/video0", "mp4", "mjpeg"⟩

/- ### Claims C1, C3, C7 -/

/-- CLAIM C1: a start request arriving while a capture is already running
returns the AlreadyRunning error and leaves the state — the process slot,
the spawned-process list, the logs — exactly unchanged; in particular no
second process is spawned. -/
theorem claim_C1_start_while_running (env : Env) (t : DateTime)
    (st : ServerState) (p : StartParams) (h : is_recording st = true) :
    start_recording env t st p = (.alreadyRecording, st) := by
  simp [start_recording, h]

/-- Witness for C1: a concrete running state, valid parameters. -/
theorem claim_C1_start_while_running_witness :
    is_recording stRunning = true ∧
      start_recording envA tA stRunning paramsA = (.alreadyRecording, stRunning) :=
  ⟨by decide, claim_C1_start_while_running envA tA stRunning paramsA (by decide)⟩

/-- CLAIM C3: stop while not recording returns the NotRunning error and
changes nothing; stop while recording returns the stopping response at once,
after sending exactly one more SIGINT to the same process — the process is
still alive and attached afterwards (its exit is observed separately by the
reaper step `reap`, which `stop_recording` never performs). -/
theorem claim_C3_stop (st : ServerState) :
    (is_recording st = false → stop_recording st = (.notRecording, st)) ∧
    (is_recording st = true →
      (stop_recording st).1 = .stopping ∧
      is_recording (stop_recording st).2 = true ∧
      (stop_recording st).2.ffmpeg_process.map Proc.sigints =
        st.ffmpeg_process.map (fun p => p.sigints + 1) ∧
      (stop_recording st).2.ffmpeg_process.map Proc.pid =
        st.ffmpeg_process.map Proc.pid ∧
      (stop_recording st).2.spawned = st.spawned) := by
  cases hp : st.ffmpeg_process with
  | none =>
    refine ⟨fun _ => ?_, fun hrec => ?_⟩
    · simp [stop_recording, hp]
    · simp [is_recording, hp] at hrec
  | some p =>
    by_cases ha : p.alive
    · refine ⟨fun hnr => ?_, fun _ => ?_⟩
      · simp [is_recording, hp, ha] at hnr
      · simp [stop_recording, is_recording, hp, ha]
    · refine ⟨fun _ => ?_, fun hrec => ?_⟩
      · simp [stop_recording, hp, ha]
      · simp [is_recording, hp] at hrec
        exact absurd hrec ha

/-- Witness for C3: the idle and the running fixture. -/
theorem claim_C3_stop_witness :
    stop_recording stIdle = (.notRecording, stIdle) ∧
      (stop_recording stRunning).1 = .stopping :=
  ⟨(claim_C3_stop stIdle).1 (by decide), ((claim_C3_stop stRunning).2 (by decide)).1⟩

/-- CLAIM C7: a start request while idle whose bitrate is outside the
accepted set (such as "900k") returns the InvalidBitrate error and leaves
the state unchanged: still idle, nothing spawned. -/
theorem claim_C7_invalid_bitrate (env : Env) (t : DateTime)
    (st : ServerState) (p : StartParams) (hidle : is_recording st = false)
    (hbr : p.bitrate ∉ BITRATES) :
    start_recording env t st p = (.invalidBitrate, st) := by
  simp [start_recording, hidle, hbr]

/-- Witness for C7: bitrate "900k" against the idle fixture. -/
theorem claim_C7_invalid_bitrate_witness :
    is_recording stIdle = false ∧ "900k" ∉ BITRATES ∧
      start_recording envA tA stIdle { paramsA with bitrate := "900k" } =
        (.invalidBitrate, stIdle) :=
  ⟨by decide, by decide,
    claim_C7_invalid_bitrate envA tA stIdle { paramsA with bitrate := "900k" }
      (by decide) (by decide)⟩

/- ### Log broker: shared deque, shared queue, websocket readers
(lines 203-204, 218-232, 371-392) -/

/-- Append to `ffmpeg_log_lines`, a `deque(maxlen=2000)`: the oldest entry
is evicted once the deque holds 2000. -/
def appendBounded (l : List LogEntry) (e : LogEntry) : List LogEntry :=
  let l2 := l ++ [e]
  if 2000 < l2.length then l2.drop (l2.length - 2000) else l2

/-- Python slice `xs[-n:]`: the last `n` elements (all of them when fewer). -/
def takeLast (n : Nat) (l : List LogEntry) : List LogEntry :=
  l.drop (l.length - n)

/-- Shared log state: the history deque `ffmpeg_log_lines`, the single
shared `ffmpeg_log_queue`, and what two concurrently connected websocket
subscribers A and B have received so far. -/
structure LogState where
  lines : List LogEntry
  q : List LogEntry
  recvA : List LogEntry
  recvB : List LogEntry
deriving DecidableEq, Repr

/-- Atomic steps touching the shared log state.  `publish` is one loop
iteration of `read_output` (append to the deque, put on the queue);
`newSession` is `ffmpeg_log_lines.clear()` at the start of `ffmpeg_worker`
(the queue is not touched there); `wsGetA`/`wsGetB` are one
`ffmpeg_log_queue.get_nowait()` by subscriber A or B followed by
`ws.send_json` (a no-op step when the queue is empty). -/
inductive LogAct
  | publish (e : LogEntry)
  | newSession
  | wsGetA
  | wsGetB
deriving DecidableEq, Repr

/-- One atomic step of the log machinery. -/
def logStep (st : LogState) : LogAct → LogState
  | .publish e => { st with lines := appendBounded st.lines e, q := st.q ++ [e] }
  | .newSession => { st with lines := [] }
  | .wsGetA =>
    match st.q with
    | [] => st
    | e :: rest => { st with q := rest, recvA := st.recvA ++ [e] }
  | .wsGetB =>
    match st.q with
    | [] => st
    | e :: rest => { st with q := rest, recvB := st.recvB ++ [e] }

/-- Run of a schedule of atomic log steps. -/
def logRun (st : LogState) (acts : List LogAct) : LogState :=
  acts.foldl logStep st

/-- Empty initial log state (server start). -/
def initLog : LogState := ⟨[], [], [], []⟩

/-- Entries published by a schedule, in order. -/
def publishedOf (acts : List LogAct) : List LogEntry :=
  acts.filterMap fun a =>
    match a with
    | .publish e => some e
    | _ => none

/-- Everything a subscriber attaching at state `st` receives when it then
drains the queue with nothing else running: the `websocket_logs` handler
first replays `list(ffmpeg_log_lines)[-200:]` and then loops on
`ffmpeg_log_queue.get_nowait()`. -/
def wsSession (st : LogState) : List LogEntry := takeLast 200 st.lines ++ st.q

/-- Sample log entries. -/
def entE0 : LogEntry := ⟨true, "frame=1"⟩

/-- Second sample log entry. -/
def entE1 : LogEntry := ⟨true, "frame=2"⟩

/-- Run of one recording session publishing `pre`, then a new session start
(`ffmpeg_log_lines.clear()` in `ffmpeg_worker`) publishing `post`. -/
def sessionRun (pre post : List LogEntry) : LogState :=
  logRun initLog
    (pre.map LogAct.publish ++ [LogAct.newSession] ++ post.map LogAct.publish)

/-- CLAIM C4 as stated: once a schedule has been fully delivered (queue
drained), every entry published during it has been observed exactly once by
each of the two attached subscribers.  The lossy-overflow exception of the
claim never applies here because the code's shared queue is unbounded. -/
def c4Claim : Prop :=
  ∀ acts : List LogAct, (logRun initLog acts).q = [] →
    ∀ e : LogEntry, LogAct.publish e ∈ acts →
      (logRun initLog acts).recvA.count e = 1 ∧
        (logRun initLog acts).recvB.count e = 1

/-- CLAIM C5 as stated: a subscriber attaching after a sequence of distinct
published entries, replaying the history snapshot and then draining the live
queue, sees no entry twice (no duplicate at the seam). -/
def c5Claim : Prop :=
  ∀ pubs : List LogEntry, pubs.Nodup →
    (wsSession (logRun initLog (pubs.map LogAct.publish))).Nodup

/-- CLAIM C9 as stated: an entry published in a previous session and not
republished is never served to a subscriber attaching during the later
session. -/
def c9Claim : Prop :=
  ∀ (pre post : List LogEntry) (e : LogEntry), e ∈ pre → e ∉ post →
    e ∉ wsSession (sessionRun pre post)

/-- Splitting a run of the log machinery at a point of the schedule. -/
theorem logRun_append (st : LogState) (l1 l2 : List LogAct) :
    logRun st (l1 ++ l2) = logRun (logRun st l1) l2 := by
  simp [logRun, List.foldl_append]

/-- Effect of a block of publishes: the deque grows boundedly, the queue
grows unboundedly, no subscriber receives anything. -/
theorem logRun_publishes (st : LogState) (pubs : List LogEntry) :
    logRun st (pubs.map LogAct.publish) =
      { st with lines := pubs.foldl appendBounded st.lines, q := st.q ++ pubs } := by
  induction pubs generalizing st with
  | nil => simp [logRun]
  | cons e rest ih =>
    show logRun (logStep st (.publish e)) (rest.map LogAct.publish) = _
    rw [ih]
    simp [logStep, List.append_assoc]

/-- Appending to the bounded deque only keeps entries of the old deque plus
the new one. -/
theorem appendBounded_subset (l : List LogEntry) (e : LogEntry) :
    appendBounded l e ⊆ l ++ [e] := by
  unfold appendBounded
  dsimp only
  split
  · exact List.drop_subset _ _
  · exact fun x hx => hx

/-- Entries of a bounded-deque fold all come from the seed or the input. -/
theorem mem_foldl_appendBounded {e : LogEntry} :
    ∀ (pubs : List LogEntry) (l : List LogEntry),
      e ∈ pubs.foldl appendBounded l → e ∈ l ∨ e ∈ pubs := by
  intro pubs
  induction pubs with
  | nil => exact fun l h => Or.inl h
  | cons p rest ih =>
    intro l h
    rcases ih (appendBounded l p) h with hl | hr
    · rcases List.mem_append.mp (appendBounded_subset l p hl) with h1 | h2
      · exact Or.inl h1
      · exact Or.inr (List.mem_cons.mpr (Or.inl (List.mem_singleton.mp h2)))
    · exact Or.inr (List.mem_cons_of_mem _ hr)

/-- Bounded append coincides with plain append below the capacity. -/
theorem foldl_appendBounded_eq :
    ∀ (pubs l : List LogEntry), l.length + pubs.length ≤ 2000 →
      pubs.foldl appendBounded l = l ++ pubs := by
  intro pubs
  induction pubs with
  | nil => intro l _; simp
  | cons p rest ih =>
    intro l hlen
    have hab : appendBounded l p = l ++ [p] := by
      unfold appendBounded
      dsimp only
      rw [if_neg]
      simp at hlen ⊢
      omega
    rw [List.foldl_cons, hab, ih _ (by simp at hlen ⊢; omega)]
    simp

/-- Invariant of runs in which only subscriber A reads: what A has received
followed by what is still queued is exactly the initial backlog plus the
published sequence, in order. -/
theorem logRun_single_reader (acts : List LogAct) :
    ∀ st : LogState, LogAct.wsGetB ∉ acts →
      (logRun st acts).recvA ++ (logRun st acts).q =
        st.recvA ++ st.q ++ publishedOf acts := by
  induction acts with
  | nil => intro st _; simp [logRun, publishedOf]
  | cons a rest ih =>
    intro st hB
    have hB2 : LogAct.wsGetB ∉ rest := fun hm => hB (List.mem_cons_of_mem _ hm)
    have hstep : logRun st (a :: rest) = logRun (logStep st a) rest := rfl
    rw [hstep]
    cases a with
    | publish e =>
      rw [ih _ hB2]
      simp [logStep, publishedOf, List.append_assoc]
    | newSession =>
      rw [ih _ hB2]
      simp [logStep, publishedOf]
    | wsGetA =>
      rw [ih _ hB2]
      cases hq : st.q with
      | nil => simp [logStep, hq, publishedOf]
      | cons e rest2 => simp [logStep, hq, publishedOf, List.append_assoc]
    | wsGetB => exact absurd (List.mem_cons_self _ _) hB

/-- CLAIM C4 refuted: with two subscribers attached, a schedule that drains
the queue can leave one of them having never observed a published entry —
the shared `ffmpeg_log_queue` is consume-once, so subscribers steal entries
from each other. -/
theorem claim_C4_counterexample : ¬ c4Claim := by
  intro h
  have h2 := (h [.publish entE0, .wsGetA] (by decide) entE0 (by decide)).2
  exact absurd h2 (by decide)

/-- CLAIM C4 amended: delivery is exactly-once and in order only with a
single attached subscriber; that subscriber's received list followed by the
still-queued backlog is exactly the published sequence.  With a second
subscriber, entries are split between them, and nothing is ever dropped
because the queue is unbounded (there is no lossy policy). -/
theorem claim_C4_amended (acts : List LogAct) (hB : LogAct.wsGetB ∉ acts) :
    (logRun initLog acts).recvA ++ (logRun initLog acts).q = publishedOf acts := by
  have h := logRun_single_reader acts initLog hB
  simpa [initLog] using h

/-- Witness for the amended C4 on a concrete publish-then-read schedule. -/
theorem claim_C4_amended_witness :
    (logRun initLog [.publish entE0, .wsGetA]).recvA ++
        (logRun initLog [.publish entE0, .wsGetA]).q =
      publishedOf [.publish entE0, .wsGetA] :=
  claim_C4_amended [.publish entE0, .wsGetA] (by decide)

/-- CLAIM C5 refuted: publishing a single entry and then subscribing
delivers that entry twice — once from the history snapshot and once from the
shared queue, which still holds it. -/
theorem claim_C5_counterexample : ¬ c5Claim := by
  intro h
  have h2 := h [entE0] (by decide)
  exact absurd h2 (by decide)

/-- CLAIM C5 amended: a subscriber attaching after `pubs` entries were
published (at most the 200 of the snapshot window, none yet consumed)
receives the whole sequence twice: the snapshot replays it and the live
queue replays it again, duplicating every entry at the seam. -/
theorem claim_C5_amended (pubs : List LogEntry) (hlen : pubs.length ≤ 200) :
    wsSession (logRun initLog (pubs.map LogAct.publish)) = pubs ++ pubs := by
  rw [logRun_publishes]
  have hfold : pubs.foldl appendBounded ([] : List LogEntry) = pubs := by
    have := foldl_appendBounded_eq pubs [] (by simp; omega)
    simpa using this
  have htake : takeLast 200 pubs = pubs := by
    unfold takeLast
    have : pubs.length - 200 = 0 := by omega
    simp [this]
  simp [wsSession, initLog, hfold, htake]

/-- Witness for the amended C5: one published entry arrives twice. -/
theorem claim_C5_amended_witness :
    wsSession (logRun initLog ([entE0].map LogAct.publish)) = [entE0] ++ [entE0] :=
  claim_C5_amended [entE0] (by decide)

/-- CLAIM C9 refuted: an entry published only in the previous session is
still served to a subscriber of the later session, because only the history
deque is cleared at session start while the shared queue keeps its backlog. -/
theorem claim_C9_counterexample : ¬ c9Claim := by
  intro h
  exact h [entE0] [] entE0 (by decide) (by decide) (by decide)

/-- CLAIM C9 amended: the history deque is cleared at the start of each
session, so the history (and hence the `/logs` reply and the websocket
snapshot) only ever holds current-session entries; but the shared queue is
not cleared and still carries the previous session's backlog in full. -/
theorem claim_C9_amended (pre post : List LogEntry) :
    (∀ e ∈ (sessionRun pre post).lines, e ∈ post) ∧
      (sessionRun pre post).q = pre ++ post := by
  have hrun : sessionRun pre post =
      { lines := post.foldl appendBounded [], q := pre ++ post,
        recvA := [], recvB := [] } := by
    unfold sessionRun
    rw [logRun_append, logRun_append, logRun_publishes]
    have hmid : logRun (logRun initLog (pre.map LogAct.publish)) [LogAct.newSession] =
        logStep (logRun initLog (pre.map LogAct.publish)) LogAct.newSession := rfl
    rw [hmid, logRun_publishes]
    simp [initLog, logStep]
  rw [hrun]
  refine ⟨fun e he => ?_, rfl⟩
  rcases mem_foldl_appendBounded post [] he with h0 | h1
  · exact absurd h0 (List.not_mem_nil e)
  · exact h1

/-- Witness for the amended C9 on a concrete two-session run. -/
theorem claim_C9_amended_witness :
    entE1 ∈ [entE1] ∧ (sessionRun [entE0] [entE1]).q = [entE0] ++ [entE1] :=
  ⟨(claim_C9_amended [entE0] [entE1]).1 entE1 (by decide),
    (claim_C9_amended [entE0] [entE1]).2⟩

/- ### Concurrent start requests (lines 214-216, 342-361) -/

/-- Outcome of one `/start` request in the race model. -/
inductive ReqPhase
  /-- Request has not yet executed its `is_recording()` check. -/
  | pending
  /-- Request passed the check and returned `{"started": True, ...}`. -/
  | started
  /-- Request returned `{"error": "Already recording"}`. -/
  | already
deriving DecidableEq, Repr

/-- Shared state seen by two concurrent `/start` requests: the global
`ffmpeg_process` slot (a pid when set, every spawned process stays alive in
this scenario), the list of live spawned processes, each request's outcome,
and whether each request's `ffmpeg_worker` thread still has its
`Popen` + assignment to run. -/
structure RaceState where
  proc : Option Nat
  alive : List Nat
  r1 : ReqPhase
  r2 : ReqPhase
  w1 : Bool
  w2 : Bool
deriving DecidableEq, Repr

/-- Atomic interleaving steps of two concurrent start requests.  `checkN` is
request N's `is_recording()` test followed (in the same handler, before any
other thread touches the state it read) by its return: the handler spawns
the worker thread and returns success without waiting for it.  `setN` is
request N's worker thread executing `Popen` and the assignment to the global
`ffmpeg_process`.  There is no lock anywhere in the source. -/
inductive RaceAct
  | check1
  | check2
  | set1
  | set2
deriving DecidableEq, Repr

/-- One atomic step of the two-request race. -/
def raceStep (s : RaceState) : RaceAct → RaceState
  | .check1 =>
    if s.r1 = .pending then
      if s.proc.isSome then { s with r1 := .already }
      else { s with r1 := .started, w1 := true }
    else s
  | .check2 =>
    if s.r2 = .pending then
      if s.proc.isSome then { s with r2 := .already }
      else { s with r2 := .started, w2 := true }
    else s
  | .set1 =>
    if s.w1 then { s with proc := some 1, alive := s.alive ++ [1], w1 := false }
    else s
  | .set2 =>
    if s.w2 then { s with proc := some 2, alive := s.alive ++ [2], w2 := false }
    else s

/-- Run of a schedule of race steps from the idle state. -/
def raceRun (acts : List RaceAct) : RaceState :=
  acts.foldl raceStep ⟨none, [], .pending, .pending, false, false⟩

/-- CLAIM C2 as stated: whatever the interleaving, once both concurrent
start requests have returned, at most one of them succeeded (the other got
AlreadyRunning) — which would follow if the status check and the claiming of
the process slot were one atomic check-and-set under a lock. -/
def c2Claim : Prop :=
  ∀ acts : List RaceAct,
    (raceRun acts).r1 ≠ .pending → (raceRun acts).r2 ≠ .pending →
      ¬((raceRun acts).r1 = .started ∧ (raceRun acts).r2 = .started)

/-- CLAIM C2 refuted: in the interleaving where both requests run their
`is_recording()` check before either worker thread assigns
`ffmpeg_process`, both requests return success and two ffmpeg processes are
spawned — the source checks and sets in separate steps with no lock. -/
theorem claim_C2_counterexample : ¬ c2Claim := by
  intro h
  exact h [.check1, .check2, .set1, .set2] (by decide) (by decide) (by decide)

/-- CLAIM C2 amended: there is no lock and no atomic check-and-set; the
check and the worker's assignment are separate steps.  When one request's
worker assigns the slot before the other request checks, the second request
does observe AlreadyRunning and only one process exists; but when both
checks precede either assignment, both requests succeed and two live
processes are spawned. -/
theorem claim_C2_amended :
    raceRun [.check1, .set1, .check2] =
      ⟨some 1, [1], .started, .already, false, false⟩ ∧
    raceRun [.check1, .check2, .set1, .set2] =
      ⟨some 2, [1, 2], .started, .started, false, false⟩ := by
  constructor <;> rfl

/- ### Process-wide shutdown (`signal_handler`, lines 20-27) -/

/-- Signals the supervisor can send to the child process. -/
inductive Sig
  /-- Graceful termination (`Popen.terminate()`, SIGTERM). -/
  | sigterm
  /-- Forceful kill (`Popen.kill()`, SIGKILL) — never sent by the source. -/
  | sigkill
deriving DecidableEq, Repr

/-- State at shutdown time: whether the ffmpeg child is alive, the signals
sent to it so far (delivery is asynchronous: sending alone does not change
`procAlive`), the `shutdown_event` flag, and whether the supervising parent
process has exited. -/
structure ShutdownState where
  procAlive : Bool
  sigsSent : List Sig
  shutdownSet : Bool
  parentExited : Bool
deriving DecidableEq, Repr

/-- Embedding of `signal_handler` (lines 20-24): set `shutdown_event`, send
`terminate()` to a live child, then `os._exit(0)` immediately — no wait on
the child, no escalation. -/
def signal_handler (s : ShutdownState) : ShutdownState :=
  let s1 : ShutdownState := { s with shutdownSet := true }
  let s2 : ShutdownState :=
    if s1.procAlive then { s1 with sigsSent := s1.sigsSent ++ [Sig.sigterm] } else s1
  { s2 with parentExited := true }

/-- CLAIM C6 as stated: shutdown while a child is running terminates it
gracefully, escalates to a forceful kill after the grace period if needed,
and no child process remains alive once shutdown completes. -/
def c6Claim : Prop :=
  ∀ s : ShutdownState, s.procAlive = true →
    (signal_handler s).procAlive = false ∨
      Sig.sigkill ∈ (signal_handler s).sigsSent

/-- CLAIM C6 refuted: the handler sends a single graceful signal and exits
the parent at once; a child that has not yet acted on the (asynchronously
delivered) signal is still alive after shutdown completes, and no forceful
kill is ever sent. -/
theorem claim_C6_counterexample : ¬ c6Claim := by
  intro h
  have h2 := h ⟨true, [], false, false⟩ rfl
  rcases h2 with h3 | h3
  · exact absurd h3 (by decide)
  · exact absurd h3 (by decide)

/-- CLAIM C6 amended: on shutdown with a live child, the handler sets the
shutdown event, sends exactly one graceful-termination signal, and exits the
parent immediately, without waiting for the child and without ever sending a
forceful kill; the child's aliveness is unchanged when the parent exits. -/
theorem claim_C6_amended (s : ShutdownState) (h : s.procAlive = true) :
    signal_handler s =
      { procAlive := true, sigsSent := s.sigsSent ++ [Sig.sigterm],
        shutdownSet := true, parentExited := true } := by
  simp [signal_handler, h]

/-- Witness for the amended C6 at a concrete live-child state. -/
theorem claim_C6_amended_witness :
    signal_handler ⟨true, [], false, false⟩ =
      { procAlive := true, sigsSent := [] ++ [Sig.sigterm],
        shutdownSet := true, parentExited := true } :=
  claim_C6_amended ⟨true, [], false, false⟩ rfl

/- ### File download and delete (`download_file` / `delete_file`,
lines 403-416) -/

/-- Splitting of a character list into path segments at every '/'. -/
def splitSegs (acc : List Char) : List Char → List String
  | [] => [String.mk acc.reverse]
  | c :: rest =>
    if c = '/' then String.mk acc.reverse :: splitSegs [] rest
    else splitSegs (c :: acc) rest

/-- POSIX-style resolution of the segments of a relative path: ".." pops the
last resolved segment, "." and empty segments vanish. -/
def resolveSegs (acc : List String) : List String → List String
  | [] => acc
  | seg :: rest =>
    if seg = ".." then resolveSegs acc.dropLast rest
    else if seg = "." ∨ seg = "" then resolveSegs acc rest
    else resolveSegs (acc ++ [seg]) rest

/-- Resolved form of a relative path, as the list of segments the operating
system actually visits. -/
def resolvePath (p : String) : List String :=
  resolveSegs [] (splitSegs [] p.data)

/-- Embedding of the `/files/{filename}` GET handler (lines 403-408) over an
abstract filesystem `fsys` (the set of resolved paths that exist): join the
client-supplied name onto `RECORDINGS_DIR`, serve the file if the joined
path exists, with no containment check of the resolved path.  Returns the
resolved path that gets read. -/
def download_file (fsys : List (List String)) (filename : String) :
    Option (List String) :=
  let fp := resolvePath (pathJoin RECORDINGS_DIR filename)
  if fp ∈ fsys then some fp else none

/-- Embedding of the `/files/{filename}` DELETE handler (lines 410-416):
same path formation and existence test, then `os.remove`.  Returns the
filesystem after deletion when the path exists. -/
def delete_file (fsys : List (List String)) (filename : String) :
    Option (List (List String)) :=
  let fp := resolvePath (pathJoin RECORDINGS_DIR filename)
  if fp ∈ fsys then some (fsys.erase fp) else none

/-- CLAIM C10: the handlers form the target path by joining the supplied
filename onto the recordings directory without confining the resolved path;
the filename "../secret" (a '..' segment) resolves outside the recordings
directory, and when that outside path exists the download handler reads it
and the delete handler removes it. -/
theorem claim_C10_path_escape :
    resolvePath (pathJoin RECORDINGS_DIR "../secret") = ["secret"] ∧
    ¬([RECORDINGS_DIR] <+: resolvePath (pathJoin RECORDINGS_DIR "../secret")) ∧
    download_file [["secret"], ["recordings", "output-a.mp4"]] "../secret" =
      some ["secret"] ∧
    delete_file [["secret"], ["recordings", "output-a.mp4"]] "../secret" =
      some [["recordings", "output-a.mp4"]] := by
  refine ⟨by decide, by decide, by decide, by decide⟩
